import Mathlib

/-!
Shallow embedding of `lxd/network/driver_common.go`: the `common` base type
shared by every LXD network driver, with its operations `validate`, `IsUsed`,
`DHCPv4Ranges`/`DHCPv6Ranges`, `update`, `configChanged` and `rename`.

Go maps of type `map[string]string` are embedded as association lists
`List (String × String)` whose key lists are duplicate-free (the theorems that
need that fact carry it as a hypothesis); a map read `m[k]` is `lookupD m k`,
which returns the Go zero value `""` when the key is absent.

The external collaborators (cluster notifier, database, instance/profile
enumeration, filesystem) are not part of the translated unit; each operation
that calls them takes an explicit environment record describing the outcome of
every collaborator call it can make, and returns a record of the observable
side effects (payload handed to the notifier, database writes) alongside the
updated in-memory state and the Go error result (`Option String`/`Except`).
-/

namespace DriverCommon

/-- Go map read `m[k]` on an association list: the first binding of `k`, or
the zero value `""` when `k` is absent. -/
def lookupD (m : List (String × String)) (k : String) : String :=
  match m.lookup k with
  | some v => v
  | none => ""

/-- Go map assignment `m[k] = v` on an association list: replace the first
binding of `k` if present, otherwise append the new binding. -/
def insertKV {β : Type} (m : List (String × β)) (k : String) (v : β) : List (String × β) :=
  match m with
  | [] => [(k, v)]
  | (k0, v0) :: rest => if k0 = k then (k, v) :: rest else (k0, v0) :: insertKV rest k v

/-- api.NetworkPut: the mutable part of a network record (description and
config) as supplied to `update`/`configChanged`. -/
structure NetworkPut where
  Description : String
  Config : List (String × String)
deriving DecidableEq

/-- The `common` struct of driver_common.go: a generic LXD network. The
`state` collaborator handle is omitted (collaborator behaviour is supplied to
each operation through an environment record) and the logger is embedded as
its context pair (driver, network) attached by `init`. -/
structure common where
  logger : String × String
  id : Int
  name : String
  netType : String
  description : String
  config : List (String × String)
  status : String
deriving DecidableEq

/-- The `init` method: (re)initialise every internal variable from the given
values, attaching a fresh logger context keyed by driver and network name. -/
def common.init (_n : common) (id : Int) (name netType description : String)
    (config : List (String × String)) (status : String) : common :=
  { logger := (netType, name), id := id, name := name, netType := netType,
    config := config, description := description, status := status }

/-- The `Name` accessor. -/
def common.Name (n : common) : String :=
  n.name

/-- The `Config` accessor. -/
def common.Config (n : common) : List (String × String) :=
  n.config

/-- Result of `validate`: nil, the wrap of a failing rule's error with the
network name and key ("Invalid value for network %q option %q"), or the
unknown-option error ("Invalid option for network %q option %q"). -/
inductive VErr where
  | invalidValue (network key msg : String)
  | invalidOption (network key : String)
deriving DecidableEq

/-- The `validationRules` method: config rules common to all drivers — the
empty map. A rule maps a key to a validator returning `some msg` on
rejection. -/
def common.validationRules (_n : common) : List (String × (String → Option String)) :=
  []

/-- The rule-merging loop of `validate`: driver-specific rules are written
over the common rules, later entries overriding earlier ones on key
collision (Go map assignment). -/
def mergeRules (base driverRules : List (String × (String → Option String))) :
    List (String × (String → Option String)) :=
  driverRules.foldl (fun acc kv => insertKV acc kv.1 kv.2) base

/-- The validator loop of `validate`: run each rule against the config value
for its key (zero value when absent) and stop at the first rejection,
wrapping it with the network name and the key. -/
def runValidators (network : String) (config : List (String × String)) :
    List (String × (String → Option String)) → Option VErr
  | [] => none
  | (k, validator) :: rest =>
    match validator (lookupD config k) with
    | some msg => some (VErr.invalidValue network k msg)
    | none => runValidators network config rest

/-- The unchecked-field scan of `validate`: any config key that is neither a
checked rule key nor prefixed "user." fails validation. -/
def findUnknown (network : String) (checkedFields : List String) :
    List (String × String) → Option VErr
  | [] => none
  | (k, _) :: rest =>
    if checkedFields.contains k then findUnknown network checkedFields rest
    else if k.startsWith "user." then findUnknown network checkedFields rest
    else some (VErr.invalidOption network k)

/-- The `validate` method: merge driver rules into the common rules, run
every validator, then reject unknown non-user keys. -/
def common.validate (n : common) (config : List (String × String))
    (driverRules : List (String × (String → Option String))) : Option VErr :=
  match runValidators n.name config (mergeRules (common.validationRules n) driverRules) with
  | some e => some e
  | none =>
    findUnknown n.name ((mergeRules (common.validationRules n) driverRules).map Prod.fst) config

/-- Outcome of the collaborator calls `update` can make: constructing the
cluster notifier (`cluster.NewNotifier`), running the fan-out (`notifier`),
and the database write (`Cluster.UpdateNetwork`). `some e` means the call
fails with error `e`. -/
structure UpdateEnv where
  newNotifierErr : Option String
  notifyErr : Option String
  dbUpdateErr : Option String
deriving DecidableEq

/-- Observable side effects of `update`: the payload handed to the notifier
fan-out (network name and the NetworkPut each peer receives through
`client.UpdateNetwork`), and the database write payload (name, description,
config), each `none` when the corresponding call never happens. -/
structure UpdateEffects where
  notified : Option (String × NetworkPut)
  dbWrite : Option (String × String × List (String × String))
deriving DecidableEq

/-- The `update` method: apply the supplied description and config to the
in-memory entity first; when the call is not itself a cluster notification,
fan out to all peers (with node-specific keys filtered from a fresh copy of
the config) if no target node is given, and then update the database. The
node-specific key registry `db.NodeSpecificNetworkConfig` lives outside this
unit and is passed in as `nodeSpecificKeys`. -/
def common.update (n : common) (nodeSpecificKeys : List String) (applyNetwork : NetworkPut)
    (targetNode : String) (clusterNotification : Bool) (env : UpdateEnv) :
    common × UpdateEffects × Option String :=
  let n1 : common := { n with description := applyNetwork.Description, config := applyNetwork.Config }
  if clusterNotification then
    (n1, { notified := none, dbWrite := none }, none)
  else if targetNode = "" then
    match env.newNotifierErr with
    | some e => (n1, { notified := none, dbWrite := none }, some e)
    | none =>
      let sendNetwork : NetworkPut :=
        { applyNetwork with
          Config := applyNetwork.Config.filter (fun kv => !nodeSpecificKeys.contains kv.1) }
      match env.notifyErr with
      | some e => (n1, { notified := some (n1.name, sendNetwork), dbWrite := none }, some e)
      | none =>
        match env.dbUpdateErr with
        | some e => (n1, { notified := some (n1.name, sendNetwork), dbWrite := none }, some e)
        | none =>
          (n1,
           { notified := some (n1.name, sendNetwork),
             dbWrite := some (n1.name, applyNetwork.Description, applyNetwork.Config) },
           none)
  else
    match env.dbUpdateErr with
    | some e => (n1, { notified := none, dbWrite := none }, some e)
    | none =>
      (n1,
       { notified := none,
         dbWrite := some (n1.name, applyNetwork.Description, applyNetwork.Config) },
       none)

/-- One diff pass of `configChanged`: for each binding (k, v) of `m`, compare
v with `other`'s value for k (zero value when absent); on a difference mark
the database update as needed and, when k is not a user key and not already
collected, append it to the changed-key list. -/
def diffLoop (other : List (String × String)) :
    List (String × String) → Bool × List String → Bool × List String
  | [], acc => acc
  | (k, v) :: rest, (changed, keys) =>
    if v ≠ lookupD other k then
      diffLoop other rest
        (true, if !k.startsWith "user." && !keys.contains k then keys ++ [k] else keys)
    else
      diffLoop other rest (changed, keys)

/-- The `configChanged` method: snapshot the current description and config
as `oldNetwork`, then diff the description and both config directions.
`shared.DeepCopy` is embedded as the value copy (in this pure embedding it
cannot fail, so the impossible error result of the Go signature is omitted);
the snapshot is returned for caller-side rollback. -/
def common.configChanged (n : common) (newNetwork : NetworkPut) :
    Bool × List String × NetworkPut :=
  let oldNetwork : NetworkPut := { Description := n.description, Config := n.config }
  let acc1 := diffLoop newNetwork.Config oldNetwork.Config
    (newNetwork.Description != n.description, [])
  let acc2 := diffLoop oldNetwork.Config newNetwork.Config acc1
  (acc2.1, acc2.2, oldNetwork)

/-- Outcomes of the collaborators `IsUsed` consults: loading instances from
all projects, the per-instance in-use predicate (`IsInUseByInstance` with the
network name already applied), loading all profiles inside a transaction, and
the per-profile in-use predicate (`IsInUseByProfile` after the
`ProfileToAPI` conversion). Instances and profiles are opaque tokens. -/
structure UsedEnv where
  loadInstances : Except String (List String)
  instInUse : String → Except String Bool
  getProfiles : Except String (List String)
  profileInUse : String → Except String Bool

/-- One enumeration loop of `IsUsed`: ask the in-use predicate for each
element, returning the first error or the first hit. -/
def scanInUse {α : Type} (check : α → Except String Bool) : List α → Except String Bool
  | [] => Except.ok false
  | x :: xs =>
    match check x with
    | Except.error e => Except.error e
    | Except.ok true => Except.ok true
    | Except.ok false => scanInUse check xs

/-- The `IsUsed` method: scan instances of all projects first, then profiles.
The second component records whether the profile enumeration was reached
(false whenever the instance phase already answered or failed). -/
def IsUsed (env : UsedEnv) : Except String Bool × Bool :=
  match env.loadInstances with
  | Except.error e => (Except.error e, false)
  | Except.ok insts =>
    match scanInUse env.instInUse insts with
    | Except.error e => (Except.error e, false)
    | Except.ok true => (Except.ok true, false)
    | Except.ok false =>
      match env.getProfiles with
      | Except.error e => (Except.error e, true)
      | Except.ok profiles =>
        match scanInUse env.profileInUse profiles with
        | Except.error e => (Except.error e, true)
        | Except.ok b => (Except.ok b, true)

/-- Outcomes of the collaborators `rename` consults: whether the directories
for the new and the old name exist (`shared.PathExists`), and the results of
`os.Rename` and `Cluster.RenameNetwork` (`os.RemoveAll`'s result is ignored
by the Go code). -/
structure RenameEnv where
  newPathExists : Bool
  oldPathExists : Bool
  osRenameErr : Option String
  dbRenameErr : Option String

/-- Observable side effects of `rename`: whether the pre-existing directory
for the new name was removed, whether the directory move ran, and the
(oldName, newName) payload of the database rename call when it was made. -/
structure RenameEffects where
  removedNewDir : Bool
  movedDir : Bool
  dbRenameCall : Option (String × String)
deriving DecidableEq

/-- The `rename` method: clear a pre-existing directory for the new name,
move the old directory if present, rename the database record, and only then
re-run `init` with the new name. -/
def common.rename (n : common) (newName : String) (env : RenameEnv) :
    common × RenameEffects × Option String :=
  let removed := env.newPathExists
  match (if env.oldPathExists then env.osRenameErr else none) with
  | some e => (n, { removedNewDir := removed, movedDir := false, dbRenameCall := none }, some e)
  | none =>
    match env.dbRenameErr with
    | some e =>
      (n, { removedNewDir := removed, movedDir := env.oldPathExists,
            dbRenameCall := some (n.name, newName) }, some e)
    | none =>
      (n.init n.id newName n.netType n.description n.config n.status,
       { removedNewDir := removed, movedDir := env.oldPathExists,
         dbRenameCall := some (n.name, newName) }, none)

/-- ASCII whitespace, standing in for Go's strings.TrimSpace cutset (the
inputs of interest are ASCII). -/
def isSpaceChar (c : Char) : Bool :=
  c == ' ' || c == '\t' || c == '\n' || c == '\r'

/-- Go strings.TrimSpace on the character list of a string. -/
def trimList (l : List Char) : List Char :=
  ((l.dropWhile isSpaceChar).reverse.dropWhile isSpaceChar).reverse

/-- Go strings.Split with a one-character separator, on character lists:
always returns at least one (possibly empty) part. -/
def splitList (sep : Char) : List Char → List (List Char)
  | [] => [[]]
  | c :: cs =>
    match splitList sep cs with
    | [] => [[]]
    | h :: t => if c = sep then [] :: h :: t else (c :: h) :: t

/-- Go strings.SplitN with limit 2 and a one-character separator: split at
the first occurrence only. -/
def splitN2 (sep : Char) (l : List Char) : List (List Char) :=
  if l.contains sep then
    [l.takeWhile (fun c => c != sep), (l.dropWhile (fun c => c != sep)).tail]
  else [l]

/-- Decimal digit test. -/
def isDigitChar (c : Char) : Bool :=
  '0' ≤ c && c ≤ '9'

/-- Hex digit test. -/
def isHexChar (c : Char) : Bool :=
  isDigitChar c || ('a' ≤ c && c ≤ 'f') || ('A' ≤ c && c ≤ 'F')

/-- Decimal digit value. -/
def digitVal (c : Char) : Nat :=
  c.toNat - '0'.toNat

/-- Hex digit value. -/
def hexVal (c : Char) : Nat :=
  if isDigitChar c then digitVal c
  else if 'a' ≤ c && c ≤ 'f' then c.toNat - 'a'.toNat + 10
  else c.toNat - 'A'.toNat + 10

/-- A nonempty all-decimal field's value. -/
def decFieldVal (g : List Char) : Option Nat :=
  if !g.isEmpty && g.all isDigitChar then
    some (g.foldl (fun n c => 10 * n + digitVal c) 0)
  else none

/-- The 16-byte v4-in-v6 form of 4 IPv4 bytes (Go's net.IPv4). -/
def v4Mapped (b : List Nat) : List Nat :=
  [0, 0, 0, 0, 0, 0, 0, 0, 0, 0, 255, 255] ++ b

/-- Modelled from the spec: the dotted-quad path of Go's net.ParseIP (the
standard library is outside this repository) — four decimal fields, each at
most 255, yielding the 16-byte v4-in-v6 form. -/
def parseIPv4 (l : List Char) : Option (List Nat) :=
  match (splitList '.' l).mapM decFieldVal with
  | some fields =>
    if fields.length = 4 && fields.all (fun n => decide (n ≤ 255)) then some (v4Mapped fields)
    else none
  | none => none

/-- A 1-4 hex-digit group's value. -/
def parseHexGroup (g : List Char) : Option Nat :=
  if !g.isEmpty && g.length ≤ 4 && g.all isHexChar then
    some (g.foldl (fun n c => 16 * n + hexVal c) 0)
  else none

/-- Big-endian bytes of a list of 16-bit groups. -/
def groupBytes (gs : List Nat) : List Nat :=
  (gs.map (fun n => [n / 256, n % 256])).flatten

/-- The text before and after the first "::", when present. -/
def splitAtDoubleColon : List Char → Option (List Char × List Char)
  | ':' :: ':' :: rest => some ([], rest)
  | c :: rest =>
    match splitAtDoubleColon rest with
    | some (a, b) => some (c :: a, b)
    | none => none
  | [] => none

/-- Whether "::" occurs in the text. -/
def hasDoubleColon (l : List Char) : Bool :=
  (splitAtDoubleColon l).isSome

/-- The hex groups of one side of a "::", empty side meaning no groups. -/
def sideGroups (l : List Char) : Option (List Nat) :=
  if l.isEmpty then some [] else (splitList ':' l).mapM parseHexGroup

/-- Modelled from the spec: the hex-colon path of Go's net.ParseIP (the
standard library is outside this repository) — eight colon-separated hex
groups, or fewer with one "::" standing for at least one zero group; the
embedded-v4 tail form is not modelled. -/
def parseIPv6 (l : List Char) : Option (List Nat) :=
  match splitAtDoubleColon l with
  | some (left, right) =>
    if hasDoubleColon right then none
    else
      match sideGroups left, sideGroups right with
      | some a, some b =>
        if a.length + b.length ≤ 7 then
          some (groupBytes a ++ List.replicate (2 * (8 - a.length - b.length)) 0 ++ groupBytes b)
        else none
      | _, _ => none
  | none =>
    match sideGroups l with
    | some gs => if gs.length = 8 then some (groupBytes gs) else none
    | none => none

/-- Modelled from the spec: Go's net.ParseIP (standard library, outside this
repository) — dispatch to the v4 or v6 form on the first '.' or ':'
character, nil (`none`) when neither occurs or the form is invalid. -/
def parseIP (l : List Char) : Option (List Nat) :=
  match l.find? (fun c => c == '.' || c == ':') with
  | some c => if c = '.' then parseIPv4 l else parseIPv6 l
  | none => none

/-- Whether a 16-byte IP is in the v4-in-v6 range. -/
def isV4Mapped (ip : List Nat) : Bool :=
  decide (ip.length = 16) && decide (ip.take 12 = [0, 0, 0, 0, 0, 0, 0, 0, 0, 0, 255, 255])

/-- Go net.IP.To4 lifted to Option: To4 of the nil IP is nil, a 4-byte IP is
itself, a v4-in-v6 16-byte IP is its last four bytes, anything else nil. -/
def to4 : Option (List Nat) → Option (List Nat)
  | none => none
  | some ip =>
    if ip.length = 4 then some ip
    else if isV4Mapped ip then some (ip.drop 12)
    else none

/-- Go net.IP.To16 lifted to Option: To16 of the nil IP is nil, a 4-byte IP
becomes its v4-in-v6 form, a 16-byte IP is itself, anything else nil. -/
def to16 : Option (List Nat) → Option (List Nat)
  | none => none
  | some ip =>
    if ip.length = 4 then some (v4Mapped ip)
    else if ip.length = 16 then some ip
    else none

/-- DHCPRange represents a range of IPs from start to end; `none` is the Go
nil IP, which the Go code stores unchecked when an endpoint fails to
parse. -/
structure DHCPRange where
  Start : Option (List Nat)
  End : Option (List Nat)
deriving DecidableEq

/-- The body of the range loop in DHCPv4Ranges/DHCPv6Ranges: SplitN the
trimmed entry at the first hyphen; an entry contributes a range (its two
parts parsed and coerced, however that turns out) exactly when the split has
two parts. -/
def parseRangeEntry (coerce : Option (List Nat) → Option (List Nat)) (r : List Char) :
    Option DHCPRange :=
  match splitN2 '-' (trimList r) with
  | [a, b] => some { Start := coerce (parseIP a), End := coerce (parseIP b) }
  | _ => none

/-- The comma-separated entries of a non-empty ranges value; an empty value
yields no entries. -/
def rangeEntries (s : String) : List (List Char) :=
  if s ≠ "" then splitList ',' s.toList else []

/-- The shared shape of DHCPv4Ranges/DHCPv6Ranges: parse every entry,
appending the contribution of each. -/
def dhcpRangesOf (coerce : Option (List Nat) → Option (List Nat)) (s : String) :
    List DHCPRange :=
  (rangeEntries s).filterMap (parseRangeEntry coerce)

/-- The `DHCPv4Ranges` method: parse "ipv4.dhcp.ranges", coercing endpoints
to 4-byte form. -/
def common.DHCPv4Ranges (n : common) : List DHCPRange :=
  dhcpRangesOf to4 (lookupD n.config "ipv4.dhcp.ranges")

/-- The `DHCPv6Ranges` method: parse "ipv6.dhcp.ranges", coercing endpoints
to 16-byte form. -/
def common.DHCPv6Ranges (n : common) : List DHCPRange :=
  dhcpRangesOf to16 (lookupD n.config "ipv6.dhcp.ranges")

end DriverCommon

namespace DriverCommon

/-- C1: for every newSpec, targetNode and entity state, `update` with
`clusterNotification = true` sets the in-memory description and config to the
supplied values and performs no notifier call and no database write (and, in
fact, leaves every other field untouched and returns nil). -/
theorem update_cluster_notification_mutates_memory_only
    (n : common) (nodeSpecificKeys : List String) (applyNetwork : NetworkPut)
    (targetNode : String) (env : UpdateEnv) :
    common.update n nodeSpecificKeys applyNetwork targetNode true env =
      ({ n with description := applyNetwork.Description, config := applyNetwork.Config },
       { notified := none, dbWrite := none }, none) :=
  rfl

/-- C10: for every newSpec and targetNode, `update` called with
`clusterNotification = true` returns nil: the notification branch performs no
fallible collaborator call. -/
theorem update_cluster_notification_returns_nil
    (n : common) (nodeSpecificKeys : List String) (applyNetwork : NetworkPut)
    (targetNode : String) (env : UpdateEnv) :
    (common.update n nodeSpecificKeys applyNetwork targetNode true env).2.2 = none :=
  rfl

/-- C2: for every top-level update (clusterNotification = false, empty
targetNode), if the notification fan-out fails, `update` returns that error
with no database write, while the in-memory description and config are
already set to the new values. -/
theorem update_peer_failure_aborts_before_persist
    (n : common) (nodeSpecificKeys : List String) (applyNetwork : NetworkPut)
    (env : UpdateEnv) (e : String)
    (h1 : env.newNotifierErr = none) (h2 : env.notifyErr = some e) :
    common.update n nodeSpecificKeys applyNetwork "" false env =
      ({ n with description := applyNetwork.Description, config := applyNetwork.Config },
       { notified := some (n.name,
           { applyNetwork with
             Config := applyNetwork.Config.filter (fun kv => !nodeSpecificKeys.contains kv.1) }),
         dbWrite := none },
       some e) := by
  simp [common.update, h1, h2]

/-- Witness for C2 at a concrete entity, newSpec and a failing peer. -/
theorem update_peer_failure_aborts_before_persist_witness :
    (({ newNotifierErr := none, notifyErr := some "peer unreachable",
        dbUpdateErr := none } : UpdateEnv).newNotifierErr = none)
    ∧ (({ newNotifierErr := none, notifyErr := some "peer unreachable",
          dbUpdateErr := none } : UpdateEnv).notifyErr = some "peer unreachable")
    ∧ common.update
        { logger := ("bridge", "net1"), id := 1, name := "net1", netType := "bridge",
          description := "old desc", config := [("mtu", "1400")], status := "Created" }
        [] { Description := "new desc", Config := [("mtu", "1500")] } "" false
        { newNotifierErr := none, notifyErr := some "peer unreachable", dbUpdateErr := none } =
      ({ logger := ("bridge", "net1"), id := 1, name := "net1", netType := "bridge",
         description := "new desc", config := [("mtu", "1500")], status := "Created" },
       { notified := some ("net1", { Description := "new desc", Config := [("mtu", "1500")] }),
         dbWrite := none },
       some "peer unreachable") :=
  ⟨rfl, rfl, update_peer_failure_aborts_before_persist _ _ _ _ _ rfl rfl⟩

/-- C3: for every top-level update with empty targetNode whose notifier is
constructed, the payload handed to the fan-out carries exactly the key-value
pairs of the supplied config whose keys are not node-specific, with unchanged
values (the payload is a freshly computed filtered copy). -/
theorem update_fanout_payload_filters_node_keys
    (n : common) (nodeSpecificKeys : List String) (applyNetwork : NetworkPut)
    (env : UpdateEnv) (h1 : env.newNotifierErr = none) :
    ∃ p : NetworkPut,
      (common.update n nodeSpecificKeys applyNetwork "" false env).2.1.notified = some (n.name, p)
      ∧ p.Description = applyNetwork.Description
      ∧ ∀ k v : String, ((k, v) ∈ p.Config ↔ ((k, v) ∈ applyNetwork.Config ∧ k ∉ nodeSpecificKeys)) := by
  refine ⟨{ applyNetwork with
            Config := applyNetwork.Config.filter (fun kv => !nodeSpecificKeys.contains kv.1) },
          ?_, rfl, ?_⟩
  · cases h2 : env.notifyErr <;> cases h3 : env.dbUpdateErr <;> simp [common.update, h1, h2, h3]
  · intro k v
    simp [List.mem_filter, List.elem_iff]

/-- Helper: the validator loop succeeds iff every rule accepts the config
value for its key (zero value when the key is absent). -/
theorem runValidators_eq_none_iff (network : String) (config : List (String × String))
    (rules : List (String × (String → Option String))) :
    runValidators network config rules = none ↔
      ∀ kv ∈ rules, kv.2 (lookupD config kv.1) = none := by
  induction rules with
  | nil => simp [runValidators]
  | cons kv rest ih =>
    obtain ⟨k, f⟩ := kv
    rw [runValidators]
    cases h : f (lookupD config k) with
    | some msg => simp [h]
    | none => simp [h, ih]

/-- Helper: a validator-loop error is the wrap of some failing rule. -/
theorem runValidators_eq_some_char (network : String) (config : List (String × String))
    (rules : List (String × (String → Option String))) (e : VErr)
    (h : runValidators network config rules = some e) :
    ∃ k f msg, e = VErr.invalidValue network k msg ∧ (k, f) ∈ rules
      ∧ f (lookupD config k) = some msg := by
  induction rules with
  | nil => simp [runValidators] at h
  | cons kv rest ih =>
    obtain ⟨k, f⟩ := kv
    rw [runValidators] at h
    cases hf : f (lookupD config k) with
    | some msg =>
      rw [hf] at h
      obtain rfl : VErr.invalidValue network k msg = e := by simpa using h
      exact ⟨k, f, msg, rfl, List.mem_cons_self _ _, hf⟩
    | none =>
      rw [hf] at h
      obtain ⟨k1, f1, msg1, he, hm, hv⟩ := ih h
      exact ⟨k1, f1, msg1, he, List.mem_cons_of_mem _ hm, hv⟩

/-- Helper: the unchecked-field scan succeeds iff every config key is a
checked field or a user key. -/
theorem findUnknown_eq_none_iff (network : String) (checked : List String)
    (config : List (String × String)) :
    findUnknown network checked config = none ↔
      ∀ kv ∈ config, kv.1 ∈ checked ∨ kv.1.startsWith "user." = true := by
  induction config with
  | nil => simp [findUnknown]
  | cons kv rest ih =>
    obtain ⟨k, v⟩ := kv
    rw [findUnknown]
    by_cases h1 : k ∈ checked
    · simp [List.elem_iff.2 h1, ih, h1]
    · have hc : checked.contains k = false := by
        simpa using h1
      by_cases h2 : k.startsWith "user." = true
      · simp [hc, h2, ih, h1]
      · simp [hc, h2, ih, h1]

/-- Helper: an unchecked-field error names a config key that is neither a
checked field nor a user key. -/
theorem findUnknown_eq_some_char (network : String) (checked : List String)
    (config : List (String × String)) (e : VErr)
    (h : findUnknown network checked config = some e) :
    ∃ k, e = VErr.invalidOption network k ∧ k ∈ config.map Prod.fst
      ∧ k ∉ checked ∧ k.startsWith "user." = false := by
  induction config with
  | nil => simp [findUnknown] at h
  | cons kv rest ih =>
    obtain ⟨k, v⟩ := kv
    rw [findUnknown] at h
    by_cases h1 : k ∈ checked
    · rw [if_pos (List.elem_iff.2 h1)] at h
      obtain ⟨k1, he, hm, hc, hu⟩ := ih h
      exact ⟨k1, he, List.mem_cons_of_mem _ hm, hc, hu⟩
    · have hc : checked.contains k = false := by
        simpa using h1
      rw [hc] at h
      simp only [Bool.false_eq_true, if_false] at h
      by_cases h2 : k.startsWith "user." = true
      · rw [if_pos h2] at h
        obtain ⟨k1, he, hm, hck, hu⟩ := ih h
        exact ⟨k1, he, List.mem_cons_of_mem _ hm, hck, hu⟩
      · rw [if_neg h2] at h
        obtain rfl : VErr.invalidOption network k = e := by simpa using h
        exact ⟨k, rfl, List.mem_map.2 ⟨(k, v), List.mem_cons_self _ _, rfl⟩, h1,
          Bool.not_eq_true _ ▸ eq_false_of_ne_true h2⟩

/-- C4: `validate` returns nil iff every rule of the effective rule set
(common rules overridden by the driver rules) accepts the config value for
its key (zero value when absent) and every config key is an effective rule
key or prefixed "user."; otherwise the error names the network and an
offending key. -/
theorem validate_ok_iff_rules_pass_and_keys_known
    (n : common) (config : List (String × String))
    (driverRules : List (String × (String → Option String))) :
    (common.validate n config driverRules = none ↔
      ((∀ kv ∈ mergeRules (common.validationRules n) driverRules,
          kv.2 (lookupD config kv.1) = none)
       ∧ ∀ kv ∈ config,
           kv.1 ∈ (mergeRules (common.validationRules n) driverRules).map Prod.fst
           ∨ kv.1.startsWith "user." = true))
    ∧ (∀ e, common.validate n config driverRules = some e →
        ((∃ k msg, e = VErr.invalidValue n.name k msg
            ∧ ∃ f, (k, f) ∈ mergeRules (common.validationRules n) driverRules
              ∧ f (lookupD config k) = some msg)
         ∨ (∃ k, e = VErr.invalidOption n.name k ∧ k ∈ config.map Prod.fst
              ∧ k ∉ (mergeRules (common.validationRules n) driverRules).map Prod.fst
              ∧ k.startsWith "user." = false))) := by
  constructor
  · cases hrv : runValidators n.name config (mergeRules (common.validationRules n) driverRules) with
    | some e =>
      constructor
      · intro h
        simp only [common.validate, hrv] at h
        exact absurd h (by simp)
      · rintro ⟨hall, -⟩
        obtain ⟨k, f, msg, -, hm, hv⟩ := runValidators_eq_some_char _ _ _ _ hrv
        have h0 : f (lookupD config k) = none := hall (k, f) hm
        rw [h0] at hv
        simp at hv
    | none =>
      have h1 := (runValidators_eq_none_iff n.name config
        (mergeRules (common.validationRules n) driverRules)).1 hrv
      simp only [common.validate, hrv]
      rw [findUnknown_eq_none_iff]
      exact ⟨fun h => ⟨h1, h⟩, fun h => h.2⟩
  · intro e he
    cases hrv : runValidators n.name config (mergeRules (common.validationRules n) driverRules) with
    | some e1 =>
      simp only [common.validate, hrv, Option.some.injEq] at he
      subst he
      obtain ⟨k, f, msg, hek, hm, hv⟩ := runValidators_eq_some_char _ _ _ _ hrv
      exact Or.inl ⟨k, msg, hek, f, hm, hv⟩
    | none =>
      simp only [common.validate, hrv] at he
      obtain ⟨k, hek, hm, hc, hu⟩ := findUnknown_eq_some_char _ _ _ _ he
      exact Or.inr ⟨k, hek, hm, hc, hu⟩

/-- Witness for C4 at a concrete network, config and driver rule set: an
accepted "mtu" rule, a free-form user key, and no unknown key. -/
theorem validate_ok_iff_rules_pass_and_keys_known_witness :
    (common.validate
        { logger := ("bridge", "net1"), id := 1, name := "net1", netType := "bridge",
          description := "", config := [], status := "" }
        [("mtu", "1500"), ("user.note", "hi")]
        [("mtu", fun v => if v = "" then some "required" else none)] = none ↔
      ((∀ kv ∈ mergeRules
            (common.validationRules
              { logger := ("bridge", "net1"), id := 1, name := "net1", netType := "bridge",
                description := "", config := [], status := "" })
            [("mtu", fun v => if v = "" then some "required" else none)],
          kv.2 (lookupD [("mtu", "1500"), ("user.note", "hi")] kv.1) = none)
       ∧ ∀ kv ∈ [("mtu", "1500"), ("user.note", "hi")],
           kv.1 ∈ (mergeRules
              (common.validationRules
                { logger := ("bridge", "net1"), id := 1, name := "net1", netType := "bridge",
                  description := "", config := [], status := "" })
              [("mtu", fun v => if v = "" then some "required" else none)]).map Prod.fst
           ∨ kv.1.startsWith "user." = true))
    ∧ (∀ e, common.validate
          { logger := ("bridge", "net1"), id := 1, name := "net1", netType := "bridge",
            description := "", config := [], status := "" }
          [("mtu", "1500"), ("user.note", "hi")]
          [("mtu", fun v => if v = "" then some "required" else none)] = some e →
        ((∃ k msg, e = VErr.invalidValue "net1" k msg
            ∧ ∃ f, (k, f) ∈ mergeRules
                (common.validationRules
                  { logger := ("bridge", "net1"), id := 1, name := "net1", netType := "bridge",
                    description := "", config := [], status := "" })
                [("mtu", fun v => if v = "" then some "required" else none)]
              ∧ f (lookupD [("mtu", "1500"), ("user.note", "hi")] k) = some msg)
         ∨ (∃ k, e = VErr.invalidOption "net1" k
              ∧ k ∈ ([("mtu", "1500"), ("user.note", "hi")] :
                  List (String × String)).map Prod.fst
              ∧ k ∉ (mergeRules
                  (common.validationRules
                    { logger := ("bridge", "net1"), id := 1, name := "net1", netType := "bridge",
                      description := "", config := [], status := "" })
                  [("mtu", fun v => if v = "" then some "required" else none)]).map Prod.fst
              ∧ k.startsWith "user." = false))) :=
  validate_ok_iff_rules_pass_and_keys_known _ _ _

/-- Helper: a successful association-list lookup yields a binding of the
list. -/
theorem lookup_mem_of_eq_some {l : List (String × String)} {k v : String}
    (h : l.lookup k = some v) : (k, v) ∈ l := by
  induction l with
  | nil => simp [List.lookup] at h
  | cons kv rest ih =>
    obtain ⟨a, b⟩ := kv
    rw [List.lookup] at h
    by_cases hk : k = a
    · subst hk
      simp only [beq_self_eq_true] at h
      obtain rfl : b = v := by simpa using h
      exact List.mem_cons_self _ _
    · have hb : (k == a) = false := by simpa using hk
      rw [hb] at h
      exact List.mem_cons_of_mem _ (ih h)

/-- Helper: on a duplicate-free association list, lookup finds each
binding. -/
theorem lookup_eq_some_of_nodup_mem {l : List (String × String)} {k v : String}
    (hnd : (l.map Prod.fst).Nodup) (hm : (k, v) ∈ l) : l.lookup k = some v := by
  induction l with
  | nil => simp at hm
  | cons kv rest ih =>
    obtain ⟨a, b⟩ := kv
    simp only [List.map_cons, List.nodup_cons] at hnd
    rcases List.mem_cons.1 hm with h | h
    · cases h
      simp [List.lookup]
    · have hka : k ≠ a := by
        rintro rfl
        exact hnd.1 (List.mem_map.2 ⟨(k, v), h, rfl⟩)
      rw [List.lookup]
      have hb : (k == a) = false := by simpa using hka
      rw [hb]
      exact ih hnd.2 h

/-- Helper: Go map read of a binding present in a duplicate-free map. -/
theorem lookupD_eq_of_nodup_mem {l : List (String × String)} {k v : String}
    (hnd : (l.map Prod.fst).Nodup) (hm : (k, v) ∈ l) : lookupD l k = v := by
  rw [lookupD, lookup_eq_some_of_nodup_mem hnd hm]

/-- Helper: the key set collected by one diff pass is the accumulator plus
every non-user key of `m` whose value differs from `other`'s. -/
theorem diffLoop_mem (other m : List (String × String)) (acc : Bool × List String) (k : String) :
    k ∈ (diffLoop other m acc).2 ↔
      (k ∈ acc.2 ∨ ∃ v, (k, v) ∈ m ∧ v ≠ lookupD other k ∧ k.startsWith "user." = false) := by
  induction m generalizing acc with
  | nil => simp [diffLoop]
  | cons kv rest ih =>
    obtain ⟨k0, v0⟩ := kv
    obtain ⟨changed, keys⟩ := acc
    by_cases h : v0 = lookupD other k0
    · rw [diffLoop, if_neg (by simpa using h)]
      rw [ih]
      simp only [List.mem_cons, Prod.mk.injEq]
      constructor
      · rintro (hk | ⟨v, hv, hne, hu⟩)
        · exact Or.inl hk
        · exact Or.inr ⟨v, Or.inr hv, hne, hu⟩
      · rintro (hk | ⟨v, (⟨rfl, rfl⟩ | hv), hne, hu⟩)
        · exact Or.inl hk
        · exact absurd h hne
        · exact Or.inr ⟨v, hv, hne, hu⟩
    · rw [diffLoop, if_pos (by simpa using h)]
      rw [ih]
      dsimp only
      by_cases hu0 : k0.startsWith "user." = true
      · have hcond : (!k0.startsWith "user." && !keys.contains k0) = false := by
          simp [hu0]
        rw [hcond]
        simp only [Bool.false_eq_true, if_false, List.mem_cons, Prod.mk.injEq]
        constructor
        · rintro (hk | ⟨v, hv, hne, hu⟩)
          · exact Or.inl hk
          · exact Or.inr ⟨v, Or.inr hv, hne, hu⟩
        · rintro (hk | ⟨v, (⟨rfl, rfl⟩ | hv), hne, hu⟩)
          · exact Or.inl hk
          · simp [hu0] at hu
          · exact Or.inr ⟨v, hv, hne, hu⟩
      · have hu0f : k0.startsWith "user." = false := by simpa using hu0
        by_cases hc : k0 ∈ keys
        · have hcond : (!k0.startsWith "user." && !keys.contains k0) = false := by
            simp [hu0f, hc]
          rw [hcond]
          simp only [Bool.false_eq_true, if_false, List.mem_cons, Prod.mk.injEq]
          constructor
          · rintro (hk | ⟨v, hv, hne, hu⟩)
            · exact Or.inl hk
            · exact Or.inr ⟨v, Or.inr hv, hne, hu⟩
          · rintro (hk | ⟨v, (⟨rfl, rfl⟩ | hv), hne, hu⟩)
            · exact Or.inl hk
            · exact Or.inl hc
            · exact Or.inr ⟨v, hv, hne, hu⟩
        · have hcond : (!k0.startsWith "user." && !keys.contains k0) = true := by
            simp [hu0f, hc]
          rw [hcond]
          simp only [if_true, List.mem_append, List.mem_cons, List.not_mem_nil, or_false,
            Prod.mk.injEq]
          constructor
          · rintro ((hk | rfl) | ⟨v, hv, hne, hu⟩)
            · exact Or.inl hk
            · exact Or.inr ⟨v0, Or.inl ⟨rfl, rfl⟩, h, hu0f⟩
            · exact Or.inr ⟨v, Or.inr hv, hne, hu⟩
          · rintro (hk | ⟨v, (⟨rfl, rfl⟩ | hv), hne, hu⟩)
            · exact Or.inl (Or.inl hk)
            · exact Or.inl (Or.inr rfl)
            · exact Or.inr ⟨v, hv, hne, hu⟩

/-- Helper: one diff pass keeps the collected key list duplicate-free. -/
theorem diffLoop_nodup (other m : List (String × String)) (acc : Bool × List String)
    (h : acc.2.Nodup) : (diffLoop other m acc).2.Nodup := by
  induction m generalizing acc with
  | nil => simpa [diffLoop] using h
  | cons kv rest ih =>
    obtain ⟨k0, v0⟩ := kv
    obtain ⟨changed, keys⟩ := acc
    by_cases hd : v0 = lookupD other k0
    · rw [diffLoop, if_neg (by simpa using hd)]
      exact ih _ h
    · rw [diffLoop, if_pos (by simpa using hd)]
      apply ih
      dsimp only at h ⊢
      by_cases hcond : (!k0.startsWith "user." && !keys.contains k0) = true
      · rw [hcond]
        simp only [if_true]
        simp only [Bool.and_eq_true, Bool.not_eq_true'] at hcond
        have hkn : k0 ∉ keys := by
          simpa using hcond.2
        simp [List.nodup_append, h, hkn]
      · have hcf : (!k0.startsWith "user." && !keys.contains k0) = false := by
          simpa using hcond
        rw [hcf]
        simpa using h

/-- Helper: one diff pass needs a database update iff the accumulator
already did or some binding of `m` differs from `other`'s value. -/
theorem diffLoop_fst (other m : List (String × String)) (acc : Bool × List String) :
    (diffLoop other m acc).1 = (acc.1 || m.any (fun kv => kv.2 != lookupD other kv.1)) := by
  induction m generalizing acc with
  | nil => simp [diffLoop]
  | cons kv rest ih =>
    obtain ⟨k, v⟩ := kv
    obtain ⟨changed, keys⟩ := acc
    by_cases h : v = lookupD other k
    · rw [diffLoop, if_neg (by simpa using h)]
      simp [ih, h]
    · rw [diffLoop, if_pos (by simpa using h)]
      simp [ih, h]

/-- Helper: on duplicate-free configs, a value difference witnessed by a
binding of either side is the same as a difference of the zero-defaulted map
reads. -/
theorem diff_entry_iff_lookupD_ne (old new : List (String × String))
    (hOld : (old.map Prod.fst).Nodup) (hNew : (new.map Prod.fst).Nodup) (k : String) :
    ((∃ v, (k, v) ∈ old ∧ v ≠ lookupD new k) ∨ (∃ v, (k, v) ∈ new ∧ v ≠ lookupD old k)) ↔
      lookupD old k ≠ lookupD new k := by
  constructor
  · rintro (⟨v, hm, hne⟩ | ⟨v, hm, hne⟩)
    · rw [lookupD_eq_of_nodup_mem hOld hm]
      exact hne
    · rw [lookupD_eq_of_nodup_mem hNew hm]
      exact fun h => hne h.symm
  · intro hne
    cases h1 : old.lookup k with
    | some v =>
      refine Or.inl ⟨v, lookup_mem_of_eq_some h1, ?_⟩
      have : lookupD old k = v := by rw [lookupD, h1]
      rw [← this]
      exact hne
    | none =>
      have hd1 : lookupD old k = "" := by rw [lookupD, h1]
      cases h2 : new.lookup k with
      | some w =>
        refine Or.inr ⟨w, lookup_mem_of_eq_some h2, ?_⟩
        have : lookupD new k = w := by rw [lookupD, h2]
        rw [← this]
        exact fun h => hne h.symm
      | none =>
        have hd2 : lookupD new k = "" := by rw [lookupD, h2]
        rw [hd1, hd2] at hne
        exact absurd rfl hne

/-- C8: on duplicate-free configs, `changedNonUserKeys` contains, without
duplicates, exactly the non-user keys whose value differs between the old
and new config (whichever side introduced them), and any difference confined
to a user key still forces `changed = true`. -/
theorem configChanged_collects_nonuser_changed_keys (n : common) (newNetwork : NetworkPut)
    (hOld : (n.config.map Prod.fst).Nodup) (hNew : (newNetwork.Config.map Prod.fst).Nodup) :
    (∀ k, k ∈ (common.configChanged n newNetwork).2.1 ↔
        (k.startsWith "user." = false ∧ lookupD n.config k ≠ lookupD newNetwork.Config k))
    ∧ (common.configChanged n newNetwork).2.1.Nodup
    ∧ (∀ k, k.startsWith "user." = true →
        lookupD n.config k ≠ lookupD newNetwork.Config k →
        (common.configChanged n newNetwork).1 = true) := by
  refine ⟨?_, ?_, ?_⟩
  · intro k
    simp only [common.configChanged]
    rw [diffLoop_mem, diffLoop_mem]
    simp only [List.not_mem_nil, false_or]
    constructor
    · rintro (⟨v, hm, hne, hu⟩ | ⟨v, hm, hne, hu⟩)
      · exact ⟨hu, (diff_entry_iff_lookupD_ne _ _ hOld hNew k).1 (Or.inl ⟨v, hm, hne⟩)⟩
      · exact ⟨hu, (diff_entry_iff_lookupD_ne _ _ hOld hNew k).1 (Or.inr ⟨v, hm, hne⟩)⟩
    · rintro ⟨hu, hne⟩
      rcases (diff_entry_iff_lookupD_ne _ _ hOld hNew k).2 hne with ⟨v, hm, hv⟩ | ⟨v, hm, hv⟩
      · exact Or.inl ⟨v, hm, hv, hu⟩
      · exact Or.inr ⟨v, hm, hv, hu⟩
  · simp only [common.configChanged]
    exact diffLoop_nodup _ _ _ (diffLoop_nodup _ _ _ (by simp))
  · intro k hu hne
    simp only [common.configChanged]
    rw [diffLoop_fst, diffLoop_fst]
    rcases (diff_entry_iff_lookupD_ne _ _ hOld hNew k).2 hne with ⟨v, hm, hv⟩ | ⟨v, hm, hv⟩
    · have : n.config.any (fun kv => kv.2 != lookupD newNetwork.Config kv.1) = true :=
        List.any_eq_true.2 ⟨(k, v), hm, by simpa using hv⟩
      simp [this]
    · have : newNetwork.Config.any (fun kv => kv.2 != lookupD n.config kv.1) = true :=
        List.any_eq_true.2 ⟨(k, v), hm, by simpa using hv⟩
      simp [this]

/-- Witness for C8 at a concrete entity whose only difference from the new
spec is the value of the user key "user.a". -/
theorem configChanged_collects_nonuser_changed_keys_witness :
    ((([("user.a", "1"), ("mtu", "9000")] : List (String × String)).map Prod.fst).Nodup)
    ∧ ((([("user.a", "2"), ("mtu", "9000")] : List (String × String)).map Prod.fst).Nodup)
    ∧ ((∀ k, k ∈ (common.configChanged
          { logger := ("bridge", "n8"), id := 8, name := "n8", netType := "bridge",
            description := "d", config := [("user.a", "1"), ("mtu", "9000")], status := "" }
          { Description := "d", Config := [("user.a", "2"), ("mtu", "9000")] }).2.1 ↔
            (k.startsWith "user." = false
             ∧ lookupD [("user.a", "1"), ("mtu", "9000")] k
                 ≠ lookupD [("user.a", "2"), ("mtu", "9000")] k))
       ∧ (common.configChanged
            { logger := ("bridge", "n8"), id := 8, name := "n8", netType := "bridge",
              description := "d", config := [("user.a", "1"), ("mtu", "9000")], status := "" }
            { Description := "d", Config := [("user.a", "2"), ("mtu", "9000")] }).2.1.Nodup
       ∧ (∀ k, k.startsWith "user." = true →
            lookupD [("user.a", "1"), ("mtu", "9000")] k
              ≠ lookupD [("user.a", "2"), ("mtu", "9000")] k →
            (common.configChanged
              { logger := ("bridge", "n8"), id := 8, name := "n8", netType := "bridge",
                description := "d", config := [("user.a", "1"), ("mtu", "9000")], status := "" }
              { Description := "d", Config := [("user.a", "2"), ("mtu", "9000")] }).1 = true)) :=
  ⟨by decide, by decide,
   configChanged_collects_nonuser_changed_keys _ _ (by decide) (by decide)⟩

/-- C9: `configChanged` is reflexive — on a duplicate-free config, feeding
the entity's own description and config back returns `changed = false` and
an empty changed-key list. -/
theorem configChanged_reflexive (n : common) (hOld : (n.config.map Prod.fst).Nodup) :
    (common.configChanged n { Description := n.description, Config := n.config }).1 = false
    ∧ (common.configChanged n { Description := n.description, Config := n.config }).2.1 = [] := by
  have hany : n.config.any (fun kv => kv.2 != lookupD n.config kv.1) = false := by
    rw [List.any_eq_false]
    rintro ⟨k, v⟩ hm
    simp [lookupD_eq_of_nodup_mem hOld hm]
  constructor
  · simp only [common.configChanged]
    rw [diffLoop_fst, diffLoop_fst]
    simp [hany]
  · rw [List.eq_nil_iff_forall_not_mem]
    intro k
    simp only [common.configChanged]
    rw [diffLoop_mem, diffLoop_mem]
    simp only [List.not_mem_nil, false_or]
    rintro (⟨v, hm, hne, -⟩ | ⟨v, hm, hne, -⟩) <;>
      exact hne (lookupD_eq_of_nodup_mem hOld hm).symm

/-- Witness for C9 at a concrete entity. -/
theorem configChanged_reflexive_witness :
    ((([("ipv4.dhcp", "true"), ("user.note", "x")] : List (String × String)).map Prod.fst).Nodup)
    ∧ ((common.configChanged
          { logger := ("bridge", "n9"), id := 9, name := "n9", netType := "bridge",
            description := "desc", config := [("ipv4.dhcp", "true"), ("user.note", "x")],
            status := "" }
          { Description := "desc",
            Config := [("ipv4.dhcp", "true"), ("user.note", "x")] }).1 = false
       ∧ (common.configChanged
            { logger := ("bridge", "n9"), id := 9, name := "n9", netType := "bridge",
              description := "desc", config := [("ipv4.dhcp", "true"), ("user.note", "x")],
              status := "" }
            { Description := "desc",
              Config := [("ipv4.dhcp", "true"), ("user.note", "x")] }).2.1 = []) :=
  ⟨by decide, configChanged_reflexive _ (by decide)⟩

/-- Helper: the length of a filterMap is the count of elements the function
keeps. -/
theorem length_filterMap_eq_countP {α β : Type} (f : α → Option β) (l : List α) :
    (l.filterMap f).length = l.countP (fun x => (f x).isSome) := by
  induction l with
  | nil => rfl
  | cons x xs ih =>
    cases h : f x <;> simp [List.filterMap_cons, h, ih, List.countP_cons]

/-- Helper: a range entry contributes an element exactly when its trimmed
text contains a hyphen. -/
theorem parseRangeEntry_isSome (coerce : Option (List Nat) → Option (List Nat))
    (r : List Char) :
    (parseRangeEntry coerce r).isSome = (trimList r).contains '-' := by
  rw [parseRangeEntry, splitN2]
  cases h : (trimList r).contains '-' with
  | false =>
    rw [if_neg (by simp)]
    rfl
  | true =>
    rw [if_pos rfl]
    rfl

/-- C5 (amended): entries without a hyphen are silently skipped — the range
lists have exactly one element per hyphen-containing entry — while an entry
with a hyphen always contributes a range, its endpoints being the coerced
parses of the part before the first hyphen and the remainder, so an entry
with unparseable endpoints or more than two hyphen-separated parts yields a
degenerate range with nil endpoints rather than being skipped. -/
theorem dhcp_ranges_skip_no_hyphen_and_keep_degenerate (n : common) :
    ((common.DHCPv4Ranges n).length =
      (rangeEntries (lookupD n.config "ipv4.dhcp.ranges")).countP
        (fun r => (trimList r).contains '-'))
    ∧ ((common.DHCPv6Ranges n).length =
        (rangeEntries (lookupD n.config "ipv6.dhcp.ranges")).countP
          (fun r => (trimList r).contains '-'))
    ∧ (∀ r : List Char, (trimList r).contains '-' = false →
        (parseRangeEntry to4 r = none ∧ parseRangeEntry to16 r = none))
    ∧ (∀ r : List Char, (trimList r).contains '-' = true →
        (parseRangeEntry to4 r =
          some { Start := to4 (parseIP ((trimList r).takeWhile (fun c => c != '-'))),
                 End := to4 (parseIP (((trimList r).dropWhile (fun c => c != '-')).tail)) }
         ∧ parseRangeEntry to16 r =
            some { Start := to16 (parseIP ((trimList r).takeWhile (fun c => c != '-'))),
                   End := to16 (parseIP (((trimList r).dropWhile (fun c => c != '-')).tail)) })) := by
  refine ⟨?_, ?_, ?_, ?_⟩
  · rw [common.DHCPv4Ranges, dhcpRangesOf, length_filterMap_eq_countP]
    exact List.countP_congr (fun r _ => by rw [parseRangeEntry_isSome])
  · rw [common.DHCPv6Ranges, dhcpRangesOf, length_filterMap_eq_countP]
    exact List.countP_congr (fun r _ => by rw [parseRangeEntry_isSome])
  · intro r h
    have h2 : ¬ ((trimList r).contains '-' = true) := by rw [h]; simp
    constructor <;> rw [parseRangeEntry, splitN2, if_neg h2]
  · intro r h
    constructor <;> rw [parseRangeEntry, splitN2, if_pos h]

/-- Witness for C5 (amended) at a concrete entity: one well-formed v4 entry,
one hyphen-free entry, and an empty v6 ranges value. -/
theorem dhcp_ranges_skip_no_hyphen_and_keep_degenerate_witness :
    ((common.DHCPv4Ranges
        { logger := ("bridge", "n5"), id := 5, name := "n5", netType := "bridge",
          description := "", config := [("ipv4.dhcp.ranges", "10.0.0.1-10.0.0.5,foo")],
          status := "" }).length =
      (rangeEntries (lookupD [("ipv4.dhcp.ranges", "10.0.0.1-10.0.0.5,foo")]
          "ipv4.dhcp.ranges")).countP (fun r => (trimList r).contains '-'))
    ∧ ((common.DHCPv6Ranges
          { logger := ("bridge", "n5"), id := 5, name := "n5", netType := "bridge",
            description := "", config := [("ipv4.dhcp.ranges", "10.0.0.1-10.0.0.5,foo")],
            status := "" }).length =
        (rangeEntries (lookupD [("ipv4.dhcp.ranges", "10.0.0.1-10.0.0.5,foo")]
            "ipv6.dhcp.ranges")).countP (fun r => (trimList r).contains '-'))
    ∧ (∀ r : List Char, (trimList r).contains '-' = false →
        (parseRangeEntry to4 r = none ∧ parseRangeEntry to16 r = none))
    ∧ (∀ r : List Char, (trimList r).contains '-' = true →
        (parseRangeEntry to4 r =
          some { Start := to4 (parseIP ((trimList r).takeWhile (fun c => c != '-'))),
                 End := to4 (parseIP (((trimList r).dropWhile (fun c => c != '-')).tail)) }
         ∧ parseRangeEntry to16 r =
            some { Start := to16 (parseIP ((trimList r).takeWhile (fun c => c != '-'))),
                   End := to16 (parseIP (((trimList r).dropWhile (fun c => c != '-')).tail)) })) :=
  dhcp_ranges_skip_no_hyphen_and_keep_degenerate _

/-- C5 (counterexample): the entry "a-b" is malformed — neither endpoint is
an IP literal — yet DHCPv4Ranges does not skip it: it contributes a
degenerate range with nil endpoints, so the claim that such entries
contribute no element is false. -/
theorem dhcp_ranges_malformed_entry_not_skipped :
    common.DHCPv4Ranges
        { logger := ("bridge", "nx"), id := 2, name := "nx", netType := "bridge",
          description := "", config := [("ipv4.dhcp.ranges", "a-b")], status := "" }
      = [{ Start := none, End := none }]
    ∧ common.DHCPv4Ranges
        { logger := ("bridge", "nx"), id := 2, name := "nx", netType := "bridge",
          description := "", config := [("ipv4.dhcp.ranges", "a-b")], status := "" }
      ≠ [] := by
  constructor
  · decide
  · decide

/-- Helper: when every in-use predicate call on the list answers, the scan
returns whether some element is in use. -/
theorem scanInUse_ok {α : Type} (check : α → Except String Bool) (b : α → Bool)
    (xs : List α) (h : ∀ x ∈ xs, check x = Except.ok (b x)) :
    scanInUse check xs = Except.ok (xs.any b) := by
  induction xs with
  | nil => rfl
  | cons x rest ih =>
    rw [scanInUse, h x (List.mem_cons_self _ _)]
    cases hb : b x with
    | false =>
      simp only [List.any_cons, hb, Bool.false_or]
      exact ih (fun y hy => h y (List.mem_cons_of_mem _ hy))
    | true => simp [List.any_cons, hb]

/-- C6: assuming no collaborator errors, `IsUsed` answers true iff some
instance of some project or some profile references the network; the profile
enumeration is reached exactly when no instance matched; false comes only
after both enumerations complete with no hit; and any collaborator error is
returned to the caller from the point where it occurs. -/
theorem IsUsed_true_iff_instance_or_profile_hit
    (env : UsedEnv) (insts profiles : List String) (bi bp : String → Bool)
    (h1 : env.loadInstances = Except.ok insts)
    (h2 : ∀ i ∈ insts, env.instInUse i = Except.ok (bi i))
    (h3 : env.getProfiles = Except.ok profiles)
    (h4 : ∀ p ∈ profiles, env.profileInUse p = Except.ok (bp p)) :
    ((IsUsed env).1 = Except.ok true ↔ (insts.any bi = true ∨ profiles.any bp = true))
    ∧ ((IsUsed env).1 = Except.ok false ↔ (insts.any bi = false ∧ profiles.any bp = false))
    ∧ ((IsUsed env).2 = true ↔ insts.any bi = false)
    ∧ (∀ (env2 : UsedEnv) (e : String), env2.loadInstances = Except.error e →
        IsUsed env2 = (Except.error e, false))
    ∧ (∀ (env2 : UsedEnv) (insts2 : List String) (e : String),
        env2.loadInstances = Except.ok insts2 →
        scanInUse env2.instInUse insts2 = Except.error e →
        IsUsed env2 = (Except.error e, false))
    ∧ (∀ (env2 : UsedEnv) (insts2 : List String) (e : String),
        env2.loadInstances = Except.ok insts2 →
        scanInUse env2.instInUse insts2 = Except.ok false →
        env2.getProfiles = Except.error e →
        IsUsed env2 = (Except.error e, true))
    ∧ (∀ (env2 : UsedEnv) (insts2 profiles2 : List String) (e : String),
        env2.loadInstances = Except.ok insts2 →
        scanInUse env2.instInUse insts2 = Except.ok false →
        env2.getProfiles = Except.ok profiles2 →
        scanInUse env2.profileInUse profiles2 = Except.error e →
        IsUsed env2 = (Except.error e, true)) := by
  have hsi := scanInUse_ok env.instInUse bi insts h2
  have hsp := scanInUse_ok env.profileInUse bp profiles h4
  have hval : IsUsed env = (Except.ok (insts.any bi || profiles.any bp), !insts.any bi) := by
    cases hb1 : insts.any bi with
    | true =>
      rw [hb1] at hsi
      simp [IsUsed, h1, hsi]
    | false =>
      rw [hb1] at hsi
      simp [IsUsed, h1, hsi, h3, hsp]
  refine ⟨?_, ?_, ?_, ?_, ?_, ?_, ?_⟩
  · rw [hval]
    simp
  · rw [hval]
    simp
  · rw [hval]
    simp
  · intro env2 e he
    simp [IsUsed, he]
  · intro env2 insts2 e he1 he2
    simp [IsUsed, he1, he2]
  · intro env2 insts2 e he1 he2 he3
    simp [IsUsed, he1, he2, he3]
  · intro env2 insts2 profiles2 e he1 he2 he3 he4
    simp [IsUsed, he1, he2, he3, he4]

/-- Witness for C6 at a concrete environment: one matching instance, one
non-matching profile. -/
theorem IsUsed_true_iff_instance_or_profile_hit_witness :
    (({ loadInstances := Except.ok ["web"],
        instInUse := fun i => Except.ok (i == "web"),
        getProfiles := Except.ok ["default"],
        profileInUse := fun _ => Except.ok false } : UsedEnv).loadInstances
      = Except.ok ["web"])
    ∧ (∀ i ∈ ["web"],
        ({ loadInstances := Except.ok ["web"],
           instInUse := fun i => Except.ok (i == "web"),
           getProfiles := Except.ok ["default"],
           profileInUse := fun _ => Except.ok false } : UsedEnv).instInUse i
          = Except.ok (i == "web"))
    ∧ ((IsUsed
          { loadInstances := Except.ok ["web"],
            instInUse := fun i => Except.ok (i == "web"),
            getProfiles := Except.ok ["default"],
            profileInUse := fun _ => Except.ok false }).1 = Except.ok true ↔
        ((["web"].any (fun i => i == "web")) = true
         ∨ (["default"].any (fun _ => false)) = true)) := by
  refine ⟨rfl, fun i _ => rfl, ?_⟩
  exact (IsUsed_true_iff_instance_or_profile_hit _ ["web"] ["default"]
    (fun i => i == "web") (fun _ => false) rfl (fun i _ => rfl) rfl (fun p _ => rfl)).1

/-- C7: if `rename` fails at the directory move or at the database rename,
the entity is returned unchanged (its in-memory name and every other field);
if it succeeds, the `Name` accessor afterwards returns the new name, the
entity equals a re-`init` with the new name, and any later rename issues its
database call relative to the new name. -/
theorem rename_failure_keeps_name_success_renames
    (n : common) (newName : String) (env : RenameEnv) :
    (∀ e : String, (common.rename n newName env).2.2 = some e →
        (common.rename n newName env).1 = n)
    ∧ ((common.rename n newName env).2.2 = none →
        ((common.rename n newName env).1.Name = newName
         ∧ (common.rename n newName env).1 =
             n.init n.id newName n.netType n.description n.config n.status
         ∧ ∀ (m : String) (env2 : RenameEnv),
             (common.rename (common.rename n newName env).1 m env2).2.1.dbRenameCall = none
             ∨ (common.rename (common.rename n newName env).1 m env2).2.1.dbRenameCall
                 = some (newName, m))) := by
  cases hm : (if env.oldPathExists then env.osRenameErr else none) with
  | some e0 =>
    constructor
    · intro e he
      simp [common.rename, hm]
    · intro he
      simp [common.rename, hm] at he
  | none =>
    cases hdb : env.dbRenameErr with
    | some e0 =>
      constructor
      · intro e he
        simp [common.rename, hm, hdb]
      · intro he
        simp [common.rename, hm, hdb] at he
    | none =>
      constructor
      · intro e he
        simp [common.rename, hm, hdb] at he
      · intro he
        refine ⟨?_, ?_, ?_⟩
        · simp [common.rename, hm, hdb, common.Name, common.init]
        · simp [common.rename, hm, hdb]
        · intro m env2
          cases hm2 : (if env2.oldPathExists then env2.osRenameErr else none) with
          | some e2 => exact Or.inl (by simp [common.rename, hm, hdb, hm2])
          | none =>
            cases hdb2 : env2.dbRenameErr with
            | some e2 =>
              exact Or.inr (by simp [common.rename, hm, hdb, hm2, hdb2, common.init])
            | none =>
              exact Or.inr (by simp [common.rename, hm, hdb, hm2, hdb2, common.init])

/-- Witness for C7 at a concrete entity: a failing directory move followed by
a successful rename to "b". -/
theorem rename_failure_keeps_name_success_renames_witness :
    ((∀ e : String,
        (common.rename
          { logger := ("bridge", "a"), id := 3, name := "a", netType := "bridge",
            description := "d", config := [], status := "" } "b"
          { newPathExists := true, oldPathExists := true,
            osRenameErr := some "permission denied", dbRenameErr := none }).2.2 = some e →
        (common.rename
          { logger := ("bridge", "a"), id := 3, name := "a", netType := "bridge",
            description := "d", config := [], status := "" } "b"
          { newPathExists := true, oldPathExists := true,
            osRenameErr := some "permission denied", dbRenameErr := none }).1 =
          { logger := ("bridge", "a"), id := 3, name := "a", netType := "bridge",
            description := "d", config := [], status := "" }))
    ∧ ((common.rename
          { logger := ("bridge", "a"), id := 3, name := "a", netType := "bridge",
            description := "d", config := [], status := "" } "b"
          { newPathExists := false, oldPathExists := true,
            osRenameErr := none, dbRenameErr := none }).2.2 = none →
        (common.rename
          { logger := ("bridge", "a"), id := 3, name := "a", netType := "bridge",
            description := "d", config := [], status := "" } "b"
          { newPathExists := false, oldPathExists := true,
            osRenameErr := none, dbRenameErr := none }).1.Name = "b") := by
  constructor
  · exact (rename_failure_keeps_name_success_renames _ "b" _).1
  · intro he
    exact ((rename_failure_keeps_name_success_renames _ "b" _).2 he).1

/-- Witness for C3 at a concrete update carrying one node-specific key. -/
theorem update_fanout_payload_filters_node_keys_witness :
    (({ newNotifierErr := none, notifyErr := none, dbUpdateErr := none } : UpdateEnv).newNotifierErr
      = none)
    ∧ ∃ p : NetworkPut,
        (common.update
          { logger := ("bridge", "net1"), id := 1, name := "net1", netType := "bridge",
            description := "old desc", config := [("mtu", "1400")], status := "Created" }
          ["parent"] { Description := "new desc", Config := [("parent", "eth0"), ("mtu", "1500")] }
          "" false
          { newNotifierErr := none, notifyErr := none, dbUpdateErr := none }).2.1.notified
          = some ("net1", p)
        ∧ p.Description = "new desc"
        ∧ ∀ k v : String,
            ((k, v) ∈ p.Config ↔
              ((k, v) ∈ [("parent", "eth0"), ("mtu", "1500")] ∧ k ∉ ["parent"])) :=
  ⟨rfl, update_fanout_payload_filters_node_keys _ _ _ _ rfl⟩

end DriverCommon
